import Mathlib

/-!
Verification of the lightci pipeline-execution engine against its
natural-language specification.  The definitions below are a shallow
embedding of the Rust sources of the repository:

* `src/packages/core/src/models.rs`   — status enumerations and data model
* `src/packages/core/src/engine.rs`   — `PipelineExecution` scheduler, engine facade
* `src/packages/core/src/executors.rs` — `LocalExecutor` / `DockerExecutor`

Rust `HashSet`/`HashMap` values are modelled as lists used with
set/map semantics; `Result<T, E>` as `Except E T`; a Rust panic
(`unwrap`/`expect` on a missing value) as a dedicated error
constructor; `chrono::Utc::now()` as an explicit `now : Nat` parameter.
-/

namespace LightCI

/-- Pipeline status enumeration, models.rs lines 69-75. -/
inductive PipelineStatus
  | Unspecified
  | Pending
  | Running
  | Completed
  | Failed
deriving DecidableEq, Repr

/-- Build status enumeration, models.rs lines 125-133. -/
inductive BuildStatus
  | Unspecified
  | Pending
  | Running
  | Success
  | Failed
  | Cancelled
  | TimedOut
deriving DecidableEq, Repr

/-- Step status enumeration, models.rs lines 189-198. -/
inductive StepStatus
  | Unspecified
  | Pending
  | Running
  | Success
  | Failed
  | Cancelled
  | TimedOut
  | Skipped
deriving DecidableEq, Repr

/-- Model of Rust `str::to_lowercase` as used by the status parsers.
All canonical status names are ASCII, where Rust lowercasing agrees
with per-character `Char.toLower`. -/
def to_lowercase (s : String) : String := String.mk (s.data.map Char.toLower)

/-- Integer decoder `impl From<i32> for PipelineStatus`, models.rs lines 77-88. -/
def PipelineStatus.from_i32 (value : Int) : PipelineStatus :=
  if value = 0 then .Unspecified
  else if value = 1 then .Pending
  else if value = 2 then .Running
  else if value = 3 then .Completed
  else if value = 4 then .Failed
  else .Unspecified

/-- Integer encoder `impl From<PipelineStatus> for i32` (`status as i32`), models.rs lines 90-94. -/
def PipelineStatus.to_i32 : PipelineStatus → Int
  | .Unspecified => 0
  | .Pending => 1
  | .Running => 2
  | .Completed => 3
  | .Failed => 4

/-- Canonical string form `impl Display for PipelineStatus`, models.rs lines 96-106. -/
def PipelineStatus.fmt : PipelineStatus → String
  | .Unspecified => "unspecified"
  | .Pending => "pending"
  | .Running => "running"
  | .Completed => "completed"
  | .Failed => "failed"

/-- String parser `impl FromStr for PipelineStatus`, models.rs lines 108-121. -/
def PipelineStatus.from_str (s : String) : Except String PipelineStatus :=
  let t := to_lowercase s
  if t = "unspecified" then .ok .Unspecified
  else if t = "pending" then .ok .Pending
  else if t = "running" then .ok .Running
  else if t = "completed" then .ok .Completed
  else if t = "failed" then .ok .Failed
  else .error ("Invalid pipeline status: " ++ s)

/-- Integer decoder `impl From<i32> for BuildStatus`, models.rs lines 135-148. -/
def BuildStatus.from_i32 (value : Int) : BuildStatus :=
  if value = 0 then .Unspecified
  else if value = 1 then .Pending
  else if value = 2 then .Running
  else if value = 3 then .Success
  else if value = 4 then .Failed
  else if value = 5 then .Cancelled
  else if value = 6 then .TimedOut
  else .Unspecified

/-- Integer encoder `impl From<BuildStatus> for i32`, models.rs lines 150-154. -/
def BuildStatus.to_i32 : BuildStatus → Int
  | .Unspecified => 0
  | .Pending => 1
  | .Running => 2
  | .Success => 3
  | .Failed => 4
  | .Cancelled => 5
  | .TimedOut => 6

/-- Canonical string form `impl Display for BuildStatus`, models.rs lines 173-185. -/
def BuildStatus.fmt : BuildStatus → String
  | .Unspecified => "unspecified"
  | .Pending => "pending"
  | .Running => "running"
  | .Success => "success"
  | .Failed => "failed"
  | .Cancelled => "cancelled"
  | .TimedOut => "timedout"

/-- String parser `impl FromStr for BuildStatus`, models.rs lines 156-171. -/
def BuildStatus.from_str (s : String) : Except String BuildStatus :=
  let t := to_lowercase s
  if t = "unspecified" then .ok .Unspecified
  else if t = "pending" then .ok .Pending
  else if t = "running" then .ok .Running
  else if t = "success" then .ok .Success
  else if t = "failed" then .ok .Failed
  else if t = "cancelled" then .ok .Cancelled
  else if t = "timedout" then .ok .TimedOut
  else .error ("Invalid build status: " ++ s)

/-- Integer decoder `impl From<i32> for StepStatus`, models.rs lines 200-214. -/
def StepStatus.from_i32 (value : Int) : StepStatus :=
  if value = 0 then .Unspecified
  else if value = 1 then .Pending
  else if value = 2 then .Running
  else if value = 3 then .Success
  else if value = 4 then .Failed
  else if value = 5 then .Cancelled
  else if value = 6 then .TimedOut
  else if value = 7 then .Skipped
  else .Unspecified

/-- Integer encoder `impl From<StepStatus> for i32`, models.rs lines 216-220. -/
def StepStatus.to_i32 : StepStatus → Int
  | .Unspecified => 0
  | .Pending => 1
  | .Running => 2
  | .Success => 3
  | .Failed => 4
  | .Cancelled => 5
  | .TimedOut => 6
  | .Skipped => 7

/-- Canonical string form `impl Display for StepStatus`, models.rs lines 240-253. -/
def StepStatus.fmt : StepStatus → String
  | .Unspecified => "unspecified"
  | .Pending => "pending"
  | .Running => "running"
  | .Success => "success"
  | .Failed => "failed"
  | .Cancelled => "cancelled"
  | .TimedOut => "timedout"
  | .Skipped => "skipped"

/-- String parser `impl FromStr for StepStatus`, models.rs lines 222-238. -/
def StepStatus.from_str (s : String) : Except String StepStatus :=
  let t := to_lowercase s
  if t = "unspecified" then .ok .Unspecified
  else if t = "pending" then .ok .Pending
  else if t = "running" then .ok .Running
  else if t = "success" then .ok .Success
  else if t = "failed" then .ok .Failed
  else if t = "cancelled" then .ok .Cancelled
  else if t = "timedout" then .ok .TimedOut
  else if t = "skipped" then .ok .Skipped
  else .error ("Invalid step status: " ++ s)

/-- Storage string decoder `impl From<String> for PipelineStatus`,
db.rs lines 94-105: unlike the `FromStr` parser it is case sensitive
and maps every unknown string to the Unspecified sentinel. -/
def PipelineStatus.from_db_string (s : String) : PipelineStatus :=
  if s = "unspecified" then .Unspecified
  else if s = "pending" then .Pending
  else if s = "running" then .Running
  else if s = "completed" then .Completed
  else if s = "failed" then .Failed
  else .Unspecified

/-- Storage string decoder `impl From<String> for BuildStatus`,
db.rs lines 119-132. -/
def BuildStatus.from_db_string (s : String) : BuildStatus :=
  if s = "unspecified" then .Unspecified
  else if s = "pending" then .Pending
  else if s = "running" then .Running
  else if s = "success" then .Success
  else if s = "failed" then .Failed
  else if s = "cancelled" then .Cancelled
  else if s = "timedout" then .TimedOut
  else .Unspecified

/-- Storage string decoder `impl From<String> for StepStatus`,
db.rs lines 148-162. -/
def StepStatus.from_db_string (s : String) : StepStatus :=
  if s = "unspecified" then .Unspecified
  else if s = "pending" then .Pending
  else if s = "running" then .Running
  else if s = "success" then .Success
  else if s = "failed" then .Failed
  else if s = "cancelled" then .Cancelled
  else if s = "timedout" then .TimedOut
  else if s = "skipped" then .Skipped
  else .Unspecified

/-- models.rs `Step`, lines 268-278. -/
structure Step where
  id : String
  name : String
  command : String
  timeout_seconds : Nat
  environment : List (String × String)
  dependencies : List String
  status : StepStatus
  created_at : Nat
  updated_at : Nat
deriving DecidableEq, Repr

/-- models.rs `Pipeline`, lines 281-292. -/
structure Pipeline where
  id : String
  name : String
  repository : String
  workspace_id : String
  description : Option String
  default_branch : String
  status : PipelineStatus
  steps : List Step
  created_at : Nat
  updated_at : Nat
deriving DecidableEq, Repr

/-- models.rs `StepResult`, lines 295-303. -/
structure StepResult where
  step_id : String
  status : StepStatus
  output : String
  error : String
  exit_code : Option Int
  started_at : Option Nat
  completed_at : Option Nat
deriving DecidableEq, Repr

/-- models.rs `Build`, lines 306-317. -/
structure Build where
  id : String
  pipeline_id : String
  branch : String
  commit : String
  status : BuildStatus
  started_at : Option Nat
  completed_at : Option Nat
  parameters : List (String × String)
  created_at : Nat
  updated_at : Nat
deriving DecidableEq, Repr

/-- models.rs `EngineError`, lines 18-26. -/
inductive EngineError
  | ValidationError (msg : String)
  | DatabaseError (msg : String)
  | GitError (msg : String)
  | WorkspaceError (msg : String)
  | ExecutorError (msg : String)
  | ConfigError (msg : String)
deriving DecidableEq, Repr

/-- Outcome of awaiting `tokio::process::Command::output()`. -/
structure CmdOutput where
  exit_code : Int
  stdout : String
  stderr : String
  elapsed_seconds : Nat
deriving DecidableEq, Repr

/-- `LocalExecutor::execute`, executors.rs lines 119-152.  `spawn` is the
result of awaiting `command.output()` (`Err` when the process could not
be launched); `started_at`/`completed_at` stand for the two
`Utc::now()` calls. -/
def LocalExecutor.execute (step : Step) (started_at completed_at : Nat)
    (spawn : Except String CmdOutput) : Except String StepResult :=
  match spawn with
  | .error e => .error ("Failed to execute command: " ++ e)
  | .ok out =>
    let status := if out.exit_code = 0 then StepStatus.Success else StepStatus.Failed
    .ok { step_id := step.id
          status := status
          output := out.stdout
          error := if out.stderr = "" then "" else out.stderr
          started_at := some started_at
          completed_at := some completed_at
          exit_code := some out.exit_code }

/-- `DockerExecutor::execute`, executors.rs lines 36-84.  The container
command line differs from the local shell invocation but the handling
of the awaited output is identical; the environment serialisation
round-trip (serde to_string/from_str on a string map) never fails and
is omitted. -/
def DockerExecutor.execute (step : Step) (started_at completed_at : Nat)
    (spawn : Except String CmdOutput) : Except String StepResult :=
  match spawn with
  | .error e => .error ("Failed to execute command: " ++ e)
  | .ok out =>
    let status := if out.exit_code = 0 then StepStatus.Success else StepStatus.Failed
    .ok { step_id := step.id
          status := status
          output := out.stdout
          error := if out.stderr = "" then "" else out.stderr
          started_at := some started_at
          completed_at := some completed_at
          exit_code := some out.exit_code }

/-- A step whose command outlives its one-second timeout budget. -/
def slowStep : Step :=
  { id := "slow", name := "slow", command := "sleep 5", timeout_seconds := 1,
    environment := [], dependencies := [], status := .Pending,
    created_at := 0, updated_at := 0 }

/-- Errors out of the modelled execution: an `EngineError` the code
returns, or a panic. -/
inductive ExecErr
  | engine (e : EngineError)
  | panicked (msg : String)
deriving DecidableEq, Repr

/-- The message of a Rust unwrap panic. -/
def unwrapPanic : String := "called Option.unwrap on a None value"

/-- Association-list model of `HashMap<String, Vec<String>>` lookup. -/
def graphGet (g : List (String × List String)) (k : String) : Option (List String) :=
  (g.find? (fun kv => kv.1 == k)).map (fun kv => kv.2)

/-- `graph.get(node)` with the empty default the traversals use for
absent keys. -/
def graphGetD (g : List (String × List String)) (k : String) : List String :=
  (graphGet g k).getD []

/-- `graph.insert(step.id, Vec::new())`, engine.rs line 497.  Every
insert of this phase carries the empty vector, so overwriting an
existing key is the same as leaving the entry in place. -/
def graphInsertEmpty (g : List (String × List String)) (k : String) :
    List (String × List String) :=
  if (g.find? (fun kv => kv.1 == k)).isSome then g else g ++ [(k, [])]

/-- `graph.get_mut(dep_id).expect(..).push(step.id)`, engine.rs
lines 510-512 (the key is always present: it was checked against the
step list and all step ids were inserted). -/
def graphPush (g : List (String × List String)) (k v : String) :
    List (String × List String) :=
  g.map (fun kv => if kv.1 == k then (kv.1, kv.2 ++ [v]) else kv)

/-- `PipelineExecution::has_cycle`, engine.rs lines 534-561, returning
the cycle flag and the updated `visited` set.  The `stack` set is
passed by value: the source removes `node` again before returning
`false`, and abandons the stack when returning `true`.  The source
recursion needs no fuel — each nested call pushes a node not yet on
the stack, and all nodes are graph keys — so with fuel at least
(number of steps + 1) the fuel-out branch is never taken; callers pass
exactly that. -/
def has_cycle (graph : List (String × List String)) :
    Nat → String → List String → List String → Bool × List String
  | 0, _node, visited, _stack => (true, visited)
  | fuel + 1, node, visited, stack =>
    if stack.contains node then (true, visited)
    else if visited.contains node then (false, visited)
    else
      let r := (graphGetD graph node).foldl
        (fun acc dependent =>
          if acc.1 then acc
          else has_cycle graph fuel dependent acc.2 (node :: stack))
        (false, visited)
      if r.1 then (true, r.2) else (false, node :: r.2)

/-- `PipelineExecution::build_dependency_graph`, engine.rs
lines 492-531: initialise an empty dependents list per step, record
each step as a dependent of each of its dependencies (failing on a
dependency that names no step), then run cycle detection from every
step with a persistent `visited` set and a per-start cleared stack. -/
def build_dependency_graph (p : Pipeline) :
    Except EngineError (List (String × List String)) :=
  let graph0 := p.steps.foldl (fun g step => graphInsertEmpty g step.id) []
  match p.steps.foldlM
      (fun g step =>
        step.dependencies.foldlM
          (fun g dep_id =>
            if p.steps.any (fun s => s.id == dep_id) then
              Except.ok (graphPush g dep_id step.id)
            else
              Except.error (EngineError.ConfigError
                ("Step " ++ step.id ++ " depends on non-existent step " ++ dep_id)))
          g)
      graph0 with
  | .error e => .error e
  | .ok graph =>
    match p.steps.foldlM
        (fun visited step =>
          match has_cycle graph (p.steps.length + 1) step.id visited [] with
          | (true, _) =>
            Except.error (EngineError.ConfigError
              ("Circular dependency detected starting from step " ++ step.id))
          | (false, v) => Except.ok v)
        ([] : List String) with
    | .error e => .error e
    | .ok _ => .ok graph

/-- Collaborators and nondeterminism oracles of one `execute` run. -/
structure ExecEnv where
  executor : Step → Except String StepResult
  spawnOrder : List String → List String
  completionOrder : List (String × Except String StepResult) →
    List (String × Except String StepResult)
  uuidView : String → String
  now : Nat

/-- The scheduler state of engine.rs lines 315-316 and 334-338, plus
the trace of step ids handed to the executor (`join_set.spawn`). -/
structure SchedState where
  ready : List String
  executing : List String
  results : List StepResult
  spawned : List String

/-- `PipelineExecution::mark_step_and_dependents_skipped`, engine.rs
lines 467-490: push a Skipped result for `step_id` — with the step id
rewritten through `Uuid::parse_str(..).unwrap_or_else(new_v4)
.to_string()`, modelled by `env.uuidView` — then recurse into each
dependent that has no result entry yet.  Fuel bounds the recursion
depth; on the acyclic graphs the scheduler validates, a fuel of
(number of steps + 1) exceeds every dependent chain. -/
def mark_step_and_dependents_skipped (graph : List (String × List String))
    (env : ExecEnv) : Nat → String → List StepResult → List StepResult
  | 0, _step_id, results => results
  | fuel + 1, step_id, results =>
    let results := results ++ [{
      step_id := env.uuidView step_id
      status := StepStatus.Skipped
      output := ""
      error := ""
      started_at := some env.now
      completed_at := some env.now
      exit_code := none }]
    (graphGetD graph step_id).foldl
      (fun results dependent =>
        if results.any (fun r => r.step_id == dependent) then results
        else mark_step_and_dependents_skipped graph env fuel dependent results)
      results

/-- The spawn phase of one scheduler iteration, engine.rs lines
353-376: for each executable step id, mark it executing, drop it from
the ready set, look its step up (`find(..).unwrap()` — a missing step
is a panic), and spawn the executor task.  Returns the updated state
and the list of task completions awaiting the drain loop. -/
def spawn_steps (p : Pipeline) (env : ExecEnv) :
    List String → SchedState → List (String × Except String StepResult) →
    SchedState × Except ExecErr (List (String × Except String StepResult))
  | [], st, acc => (st, .ok acc)
  | step_id :: rest, st, acc =>
    let st := { st with
      executing := if st.executing.contains step_id then st.executing
        else st.executing ++ [step_id]
      ready := st.ready.erase step_id }
    match p.steps.find? (fun s => s.id == step_id) with
    | none => (st, .error (.panicked unwrapPanic))
    | some step =>
      spawn_steps p env rest { st with spawned := st.spawned ++ [step_id] }
        (acc ++ [(step_id, env.executor step)])

/-- The dependent-readiness scan of engine.rs lines 400-419: for each
dependent of a completed step, look the dependent step up
(`find(..).unwrap()`), and add it to the ready set if every one of its
dependencies has a Success result. -/
def readyDependents (p : Pipeline) (results : List StepResult) :
    List String → List String → Except ExecErr (List String)
  | [], ready => .ok ready
  | dependent :: rest, ready =>
    match p.steps.find? (fun s => s.id == dependent) with
    | none => .error (.panicked unwrapPanic)
    | some dependent_step =>
      let all_dependencies_complete := dependent_step.dependencies.all
        (fun dep_id => results.any
          (fun r => r.step_id == dep_id && r.status == StepStatus.Success))
      let ready := if all_dependencies_complete then
          (if ready.contains dependent then ready else ready ++ [dependent])
        else ready
      readyDependents p results rest ready

/-- The drain loop of engine.rs lines 379-435: for each completion, in
the order the `JoinSet` yields them, find the slot of the completed
step in the results vector (`position(..).unwrap()` — the panic claim
C1 is about), then either store the executor result and enqueue newly
ready dependents, or mark the entry Failed and skip all transitive
dependents, and finally drop the step from the executing set. -/
def process_completions (p : Pipeline) (env : ExecEnv)
    (graph : List (String × List String)) :
    List (String × Except String StepResult) → SchedState →
    SchedState × Except ExecErr Unit
  | [], st => (st, .ok ())
  | (step_id, execution_result) :: rest, st =>
    match st.results.findIdx? (fun r => r.step_id == step_id) with
    | none => (st, .error (.panicked unwrapPanic))
    | some result_index =>
      match execution_result with
      | .ok result =>
        let st := { st with results := st.results.set result_index result }
        match readyDependents p st.results (graphGetD graph step_id) st.ready with
        | .error e => (st, .error e)
        | .ok ready2 =>
          let st := { st with ready := ready2
                              executing := st.executing.erase step_id }
          process_completions p env graph rest st
      | .error err =>
        match st.results.get? result_index with
        | none => (st, .error (.panicked "index out of bounds"))
        | some r0 =>
          let r1 := { r0 with status := StepStatus.Failed
                              error := err
                              completed_at := some env.now }
          let st := { st with results := st.results.set result_index r1 }
          let results2 :=
            (graphGetD graph step_id).foldl
              (fun results dependent =>
                mark_step_and_dependents_skipped graph env
                  (p.steps.length + 1) dependent results)
              st.results
          let st := { st with results := results2 }
          let st := { st with executing := st.executing.erase step_id }
          process_completions p env graph rest st

/-- The status filter of the post-loop orphan check:
`matches!(r.status, Success | Failed | Skipped)`, engine.rs line 441. -/
def is_completed_status : StepStatus → Bool
  | .Success => true
  | .Failed => true
  | .Skipped => true
  | _ => false

/-- The orphan check of engine.rs lines 438-459: the set of step ids
with a completed result must equal the set of all step ids. -/
def completed_matches_all (p : Pipeline) (results : List StepResult) : Bool :=
  let completed := (results.filter (fun r => is_completed_status r.status)).map
    (fun r => r.step_id)
  let all := p.steps.map (fun s => s.id)
  all.all (fun id => completed.contains id) && completed.all (fun id => all.contains id)

/-- The orphaned step ids reported by the configuration error of
engine.rs lines 450-457 (the set difference; the `HashSet` iteration
order of the report is unspecified, the model uses step order). -/
def missing_steps (p : Pipeline) (results : List StepResult) : List String :=
  let completed := (results.filter (fun r => is_completed_status r.status)).map
    (fun r => r.step_id)
  (p.steps.map (fun s => s.id)).filter (fun id => !(completed.contains id))

/-- The scheduler loop of engine.rs lines 346-462.  One iteration
collects the executable batch (ready minus executing), spawns it,
drains every completion of the batch, then — when nothing remains
ready or executing — runs the orphan check.  The fuel only bounds the
iteration count of the model; callers pass (number of steps + 1),
which the source loop never exceeds before returning. -/
def execute_loop (p : Pipeline) (env : ExecEnv)
    (graph : List (String × List String)) :
    Nat → SchedState → List String × Except ExecErr (List StepResult)
  | 0, st => (st.spawned, .error (.panicked "scheduler fuel exhausted"))
  | fuel + 1, st =>
    if st.ready.isEmpty && st.executing.isEmpty then
      (st.spawned, .ok st.results)
    else
      let executable_steps :=
        env.spawnOrder (st.ready.filter (fun id => !(st.executing.contains id)))
      let step_phase :=
        if executable_steps.isEmpty then (st, Except.ok ())
        else
          match spawn_steps p env executable_steps st [] with
          | (st1, .error e) => (st1, .error e)
          | (st1, .ok completions) =>
            process_completions p env graph (env.completionOrder completions) st1
      match step_phase with
      | (st2, .error e) => (st2.spawned, .error e)
      | (st2, .ok _) =>
        if st2.executing.isEmpty && st2.ready.isEmpty then
          if completed_matches_all p st2.results then
            execute_loop p env graph fuel st2
          else
            (st2.spawned, .error (.engine (.ConfigError
              ("Steps " ++ String.intercalate ", " (missing_steps p st2.results) ++
                " were never executed. Possible dependency issue."))))
        else
          execute_loop p env graph fuel st2

/-- `PipelineExecution::execute`, engine.rs lines 331-465: build and
validate the dependency graph, collect the dependency-free entry
steps, fail when a non-empty pipeline has none, then run the scheduler
loop from the empty results vector (`PipelineExecution::new`, lines
319-329).  Returns the trace of spawned step ids next to the result. -/
def PipelineExecution.execute (p : Pipeline) (env : ExecEnv) :
    List String × Except ExecErr (List StepResult) :=
  match build_dependency_graph p with
  | .error e => ([], .error (.engine e))
  | .ok graph =>
    let ready_steps := (p.steps.filter (fun step => step.dependencies.isEmpty)).foldl
      (fun acc step => if acc.contains step.id then acc else acc ++ [step.id]) []
    if !p.steps.isEmpty && ready_steps.isEmpty then
      ([], .error (.engine (.ConfigError
        "Pipeline has no entry points (all steps have dependencies)")))
    else
      execute_loop p env graph (p.steps.length + 1)
        { ready := ready_steps, executing := [], results := [], spawned := [] }

/-- The store contents the facade operations touch. -/
structure DbState where
  pipelines : List Pipeline
  builds : List Build
deriving DecidableEq, Repr

/-- `db.get_pipeline(id)` as used by the facade (engine.rs lines
913-916): the stored pipeline, or a database error when the id is
unknown. -/
def Db.get_pipeline (db : DbState) (id : String) : Except EngineError Pipeline :=
  match db.pipelines.find? (fun p => p.id == id) with
  | some p => .ok p
  | none => .error (.DatabaseError ("no pipeline with id " ++ id))

/-- `db.update_build(build)`: replace the stored build with the same id. -/
def Db.update_build (db : DbState) (b : Build) : DbState :=
  { db with builds := db.builds.map (fun x => if x.id == b.id then b else x) }

/-- `Engine::create_build`, engine.rs lines 979-997: persist and return
a fresh Pending build built from the request fields (`freshId` models
`Uuid::new_v4()`). -/
def Engine.create_build (db : DbState) (pipeline_id branch commitv : String)
    (parameters : List (String × String)) (freshId : String) (now : Nat) :
    DbState × Build :=
  let build : Build :=
    { id := freshId, pipeline_id := pipeline_id, branch := branch, commit := commitv,
      status := .Pending, started_at := none, completed_at := none,
      parameters := parameters, created_at := now, updated_at := now }
  ({ db with builds := db.builds ++ [build] }, build)

/-- `Engine::trigger_build`, engine.rs lines 1022-1056 (identical to
`PipelineEngine::trigger_build`, lines 218-252): fetch the pipeline,
persist a Pending build via `create_build`, `tokio::spawn` the
execution (recorded as the Boolean flag), and return the build.  No
validation of the pipeline happens here. -/
def Engine.trigger_build (db : DbState) (pipeline_id freshId : String) (now : Nat) :
    Except EngineError Build × DbState × Bool :=
  match Db.get_pipeline db pipeline_id with
  | .error e => (.error e, db, false)
  | .ok pipeline =>
    let r := Engine.create_build db pipeline_id pipeline.default_branch "HEAD" []
      freshId now
    (.ok r.2, r.1, true)

/-- The build status `Engine::execute_build` persists after `execute`
returns results, engine.rs lines 965-969 (identically
`PipelineEngine::execute_build`, lines 273-277): Failed when any
result has status Failed, Success otherwise. -/
def build_status_of_results (results : List StepResult) : BuildStatus :=
  if results.any (fun r => r.status == StepStatus.Failed) then .Failed else .Success

/-- `Engine::execute_build`, engine.rs lines 951-977: fetch the
pipeline, persist the build as Running, run the scheduler, and on
success persist the final status computed by
`build_status_of_results`. -/
def Engine.execute_build (db : DbState) (build : Build) (env : ExecEnv) :
    DbState × Except ExecErr Unit :=
  match Db.get_pipeline db build.pipeline_id with
  | .error e => (db, .error (.engine e))
  | .ok pipeline =>
    let build_running := { build with status := BuildStatus.Running }
    let db1 := Db.update_build db build_running
    match (PipelineExecution.execute pipeline env).2 with
    | .error e => (db1, .error e)
    | .ok results =>
      let build_done := { build_running with
        status := build_status_of_results results
        completed_at := some env.now }
      (Db.update_build db1 build_done, .ok ())

/-- A step with the given id and dependencies. -/
def mkStep (id : String) (deps : List String) : Step :=
  { id := id, name := id, command := "echo " ++ id, timeout_seconds := 300,
    environment := [], dependencies := deps, status := .Pending,
    created_at := 0, updated_at := 0 }

/-- A pipeline "p1" with the given steps. -/
def mkPipeline (steps : List Step) : Pipeline :=
  { id := "p1", name := "test-pipeline", repository := "repo",
    workspace_id := "ws", description := none, default_branch := "main",
    status := .Pending, steps := steps, created_at := 0, updated_at := 0 }

/-- The Success result the mock executor of the engine tests returns. -/
def okResult (step : Step) : StepResult :=
  { step_id := step.id, status := .Success, output := "Executed step " ++ step.id,
    error := "", started_at := some 0, completed_at := some 0, exit_code := some 0 }

/-- The populated Failed result the mock executor returns for a step
marked as failing (engine.rs lines 616-625). -/
def failedResult (step : Step) : StepResult :=
  { step_id := step.id, status := .Failed, output := "", error := "",
    started_at := some 0, completed_at := some 0, exit_code := some 1 }

/-- An execution environment with identity orderings and clock zero. -/
def mkEnv (ex : Step → Except String StepResult) : ExecEnv :=
  { executor := ex, spawnOrder := id, completionOrder := id, uuidView := id, now := 0 }

/-- Every step succeeds. -/
def successEnv : ExecEnv := mkEnv (fun step => .ok (okResult step))

/-- Step "step1" fails (with a populated Failed result, as in
`test_failure_propagation`); every other step succeeds. -/
def failStep1Env : ExecEnv := mkEnv (fun step =>
  if step.id == "step1" then .ok (failedResult step) else .ok (okResult step))

/-- One dependency-free step. -/
def pipelineSingle : Pipeline := mkPipeline [mkStep "step1" []]

/-- Two steps, the second depending on the first. -/
def pipelineChain : Pipeline := mkPipeline [mkStep "step1" [], mkStep "step2" ["step1"]]

/-- Two steps depending on each other (`test_circular_dependency_detection`). -/
def pipelineCyclic : Pipeline :=
  mkPipeline [mkStep "step1" ["step2"], mkStep "step2" ["step1"]]

/-- One step depending on itself: every step has a non-empty
dependency set. -/
def pipelineSelfLoop : Pipeline := mkPipeline [mkStep "a" ["a"]]

/-- A store holding only the cyclic two-step pipeline. -/
def dbCyclic : DbState := { pipelines := [pipelineCyclic], builds := [] }

/-- The Pending build `trigger_build` persists for pipeline "p1". -/
def pendingBuild : Build :=
  { id := "b1", pipeline_id := "p1", branch := "main", commit := "HEAD",
    status := .Pending, started_at := none, completed_at := none,
    parameters := [], created_at := 0, updated_at := 0 }

/-- A result whose step timed out. -/
def timedOutResult : StepResult :=
  { step_id := "a", status := .TimedOut, output := "", error := "",
    exit_code := none, started_at := none, completed_at := none }

/-- Claim C7: for every value of each of the three status enumerations,
parsing the canonical lowercase string form yields the value back:
`parse(format(s)) = s`. -/
theorem status_string_roundtrip :
    (∀ s : PipelineStatus, PipelineStatus.from_str (PipelineStatus.fmt s) = Except.ok s) ∧
    (∀ s : BuildStatus, BuildStatus.from_str (BuildStatus.fmt s) = Except.ok s) ∧
    (∀ s : StepStatus, StepStatus.from_str (StepStatus.fmt s) = Except.ok s) := by
  refine ⟨?_, ?_, ?_⟩ <;> intro s <;> cases s <;> rfl

/-- Claim C6, counterexample: each string parser returns an error on a
string that is not a canonical status name; it does not return the
Unspecified sentinel. -/
theorem status_parser_unknown_counterexample :
    PipelineStatus.from_str "bogus" = Except.error "Invalid pipeline status: bogus" ∧
    BuildStatus.from_str "bogus" = Except.error "Invalid build status: bogus" ∧
    StepStatus.from_str "bogus" = Except.error "Invalid step status: bogus" ∧
    PipelineStatus.from_str "bogus" ≠ Except.ok PipelineStatus.Unspecified ∧
    BuildStatus.from_str "bogus" ≠ Except.ok BuildStatus.Unspecified ∧
    StepStatus.from_str "bogus" ≠ Except.ok StepStatus.Unspecified := by
  refine ⟨rfl, rfl, rfl, ?_, ?_, ?_⟩ <;> intro h <;> exact Except.noConfusion h

/-- Claim C6 as amended: for every string whose lowercase form is not a
canonical status name, each of the three `FromStr` parsers of models.rs
returns an error naming the offending string — it never returns the
Unspecified sentinel; the map-unknown-to-Unspecified behaviour lives in
the storage string decoders of db.rs (`From<String>`, proved below in
the same statement) and in the integer decoders, not in the parsers the
claim cites. -/
theorem status_parser_unknown_errors (s : String)
    (hp : to_lowercase s ∉ (["unspecified", "pending", "running", "completed", "failed"] : List String))
    (hb : to_lowercase s ∉ (["unspecified", "pending", "running", "success", "failed",
      "cancelled", "timedout"] : List String))
    (hs : to_lowercase s ∉ (["unspecified", "pending", "running", "success", "failed",
      "cancelled", "timedout", "skipped"] : List String)) :
    PipelineStatus.from_str s = Except.error ("Invalid pipeline status: " ++ s) ∧
    BuildStatus.from_str s = Except.error ("Invalid build status: " ++ s) ∧
    StepStatus.from_str s = Except.error ("Invalid step status: " ++ s) ∧
    PipelineStatus.from_db_string s = PipelineStatus.Unspecified ∧
    BuildStatus.from_db_string s = BuildStatus.Unspecified ∧
    StepStatus.from_db_string s = StepStatus.Unspecified := by
  simp only [List.mem_cons, List.not_mem_nil, or_false, not_or] at hp hb hs
  have e1 : ¬(s = "unspecified") := fun h => hp.1 (by rw [h]; rfl)
  have e2 : ¬(s = "pending") := fun h => hp.2.1 (by rw [h]; rfl)
  have e3 : ¬(s = "running") := fun h => hp.2.2.1 (by rw [h]; rfl)
  have e4 : ¬(s = "completed") := fun h => hp.2.2.2.1 (by rw [h]; rfl)
  have e5 : ¬(s = "failed") := fun h => hp.2.2.2.2 (by rw [h]; rfl)
  have e6 : ¬(s = "success") := fun h => hb.2.2.2.1 (by rw [h]; rfl)
  have e7 : ¬(s = "cancelled") := fun h => hb.2.2.2.2.2.1 (by rw [h]; rfl)
  have e8 : ¬(s = "timedout") := fun h => hb.2.2.2.2.2.2 (by rw [h]; rfl)
  have e9 : ¬(s = "skipped") := fun h => hs.2.2.2.2.2.2.2 (by rw [h]; rfl)
  refine ⟨?_, ?_, ?_, ?_, ?_, ?_⟩
  · simp [PipelineStatus.from_str, hp.1, hp.2.1, hp.2.2.1, hp.2.2.2.1, hp.2.2.2.2]
  · simp [BuildStatus.from_str, hb.1, hb.2.1, hb.2.2.1, hb.2.2.2.1, hb.2.2.2.2.1,
      hb.2.2.2.2.2.1, hb.2.2.2.2.2.2]
  · simp [StepStatus.from_str, hs.1, hs.2.1, hs.2.2.1, hs.2.2.2.1, hs.2.2.2.2.1,
      hs.2.2.2.2.2.1, hs.2.2.2.2.2.2.1, hs.2.2.2.2.2.2.2]
  · simp [PipelineStatus.from_db_string, e1, e2, e3, e4, e5]
  · simp [BuildStatus.from_db_string, e1, e2, e3, e6, e5, e7, e8]
  · simp [StepStatus.from_db_string, e1, e2, e3, e6, e5, e7, e8, e9]

/-- Witness for the amended C6 theorem at the concrete string "bogus". -/
theorem status_parser_unknown_errors_witness :
    PipelineStatus.from_str "bogus" = Except.error ("Invalid pipeline status: " ++ "bogus") ∧
    BuildStatus.from_str "bogus" = Except.error ("Invalid build status: " ++ "bogus") ∧
    StepStatus.from_str "bogus" = Except.error ("Invalid step status: " ++ "bogus") ∧
    PipelineStatus.from_db_string "bogus" = PipelineStatus.Unspecified ∧
    BuildStatus.from_db_string "bogus" = BuildStatus.Unspecified ∧
    StepStatus.from_db_string "bogus" = StepStatus.Unspecified :=
  status_parser_unknown_errors "bogus" (by decide) (by decide) (by decide)

/-- Claim C10: for each of the three status enumerations the integer
decoder is total: it inverts the integer encoding on every status
value, and maps every integer that is not a defined encoding to the
Unspecified sentinel. -/
theorem status_int_decode_total :
    (∀ s : PipelineStatus, PipelineStatus.from_i32 (PipelineStatus.to_i32 s) = s) ∧
    (∀ s : BuildStatus, BuildStatus.from_i32 (BuildStatus.to_i32 s) = s) ∧
    (∀ s : StepStatus, StepStatus.from_i32 (StepStatus.to_i32 s) = s) ∧
    (∀ i : Int, i ≠ 0 → i ≠ 1 → i ≠ 2 → i ≠ 3 → i ≠ 4 →
      PipelineStatus.from_i32 i = PipelineStatus.Unspecified) ∧
    (∀ i : Int, i ≠ 0 → i ≠ 1 → i ≠ 2 → i ≠ 3 → i ≠ 4 → i ≠ 5 → i ≠ 6 →
      BuildStatus.from_i32 i = BuildStatus.Unspecified) ∧
    (∀ i : Int, i ≠ 0 → i ≠ 1 → i ≠ 2 → i ≠ 3 → i ≠ 4 → i ≠ 5 → i ≠ 6 → i ≠ 7 →
      StepStatus.from_i32 i = StepStatus.Unspecified) := by
  refine ⟨?_, ?_, ?_, ?_, ?_, ?_⟩
  · intro s; cases s <;> rfl
  · intro s; cases s <;> rfl
  · intro s; cases s <;> rfl
  · intro i h0 h1 h2 h3 h4; simp [PipelineStatus.from_i32, h0, h1, h2, h3, h4]
  · intro i h0 h1 h2 h3 h4 h5 h6; simp [BuildStatus.from_i32, h0, h1, h2, h3, h4, h5, h6]
  · intro i h0 h1 h2 h3 h4 h5 h6 h7
    simp [StepStatus.from_i32, h0, h1, h2, h3, h4, h5, h6, h7]

/-- Witness for C10 at concrete inputs: the encoding of Running decodes
back to Running, and the undefined encoding 42 decodes to Unspecified. -/
theorem status_int_decode_total_witness :
    PipelineStatus.from_i32 (PipelineStatus.to_i32 PipelineStatus.Running) =
      PipelineStatus.Running ∧
    StepStatus.from_i32 42 = StepStatus.Unspecified :=
  ⟨status_int_decode_total.1 PipelineStatus.Running,
    status_int_decode_total.2.2.2.2.2 42 (by decide) (by decide) (by decide) (by decide)
      (by decide) (by decide) (by decide) (by decide)⟩

/-- Claim C5, counterexample: a step with `timeout_seconds = 1` whose
command only returns after 5 seconds is reported as Success with empty
error, not as TimedOut with error "timeout after 1s" — the executors
apply no timeout at all. -/
theorem executor_timeout_counterexample :
    LocalExecutor.execute slowStep 0 5 (Except.ok ⟨0, "", "", 5⟩) =
      Except.ok { step_id := "slow", status := .Success, output := "", error := "",
                  exit_code := some 0, started_at := some 0, completed_at := some 5 } ∧
    StepStatus.Success ≠ StepStatus.TimedOut ∧
    "" ≠ "timeout after 1s" := by
  refine ⟨rfl, by decide, by decide⟩

/-- Claim C5 as amended: no adapter-level timeout exists for any value
of `timeout_seconds`: both executors wait for the command outcome
unconditionally, their results never carry status TimedOut, and the
result is entirely independent of `timeout_seconds` (and of the elapsed
wall-clock time). -/
theorem executor_no_timeout (step : Step) (s c t e : Nat) (o : CmdOutput) :
    (∀ r, LocalExecutor.execute step s c (.ok o) = .ok r →
      (r.status = .Success ∨ r.status = .Failed) ∧ r.status ≠ .TimedOut) ∧
    (∀ r, DockerExecutor.execute step s c (.ok o) = .ok r →
      (r.status = .Success ∨ r.status = .Failed) ∧ r.status ≠ .TimedOut) ∧
    LocalExecutor.execute { step with timeout_seconds := t } s c (.ok o) =
      LocalExecutor.execute step s c (.ok o) ∧
    DockerExecutor.execute { step with timeout_seconds := t } s c (.ok o) =
      DockerExecutor.execute step s c (.ok o) ∧
    LocalExecutor.execute step s c (.ok { o with elapsed_seconds := e }) =
      LocalExecutor.execute step s c (.ok o) := by
  refine ⟨?_, ?_, rfl, rfl, rfl⟩ <;>
    · intro r hr
      simp only [LocalExecutor.execute, DockerExecutor.execute] at hr
      by_cases h0 : o.exit_code = 0 <;>
        simp only [h0, if_true, if_false, ite_true, ite_false, Except.ok.injEq] at hr <;>
        subst hr <;> simp

/-- Witness for the amended C5 theorem at a concrete step and outcome. -/
theorem executor_no_timeout_witness :
    (StepStatus.Success = StepStatus.Success ∨ StepStatus.Success = StepStatus.Failed) ∧
      StepStatus.Success ≠ StepStatus.TimedOut :=
  (executor_no_timeout slowStep 0 5 99 7 ⟨0, "", "", 5⟩).1
    { step_id := "slow", status := .Success, output := "", error := "",
      exit_code := some 0, started_at := some 0, completed_at := some 5 }
    rfl

/-- Claim C1 (contradicted by the code): for this validated one-step
pipeline with an executor returning Success, `execute` does not return
Ok with a StepResult for the step.  `PipelineExecution::new` creates
the results vector empty and nothing fills it before the drain loop,
so the slot lookup `position(..).unwrap()` for the very first awaited
completion panics. -/
theorem execute_single_step_panics :
    PipelineExecution.execute pipelineSingle successEnv =
      (["step1"], .error (.panicked unwrapPanic)) := rfl

/-- Claim C2 (contradicted by the code): in the failure scenario of the
repository's own `test_failure_propagation` — "step1" completes with a
populated Failed result, "step2" depends on it — the dependent never
receives a Skipped result: the scheduler panics at the results-slot
lookup of the failed completion, and even absent that panic the
`Ok(Failed)` branch (engine.rs lines 388-419) never invokes
`mark_step_and_dependents_skipped`. -/
theorem execute_failed_step_no_skip :
    PipelineExecution.execute pipelineChain failStep1Env =
      (["step1"], .error (.panicked unwrapPanic)) := rfl

/-- Claim C9, counterexample: for the pipeline whose single step
depends on itself — a pipeline with at least one step in which every
step has a non-empty dependency set — `execute` returns the circular
dependency configuration error raised by `build_dependency_graph`,
which runs before the entry-point check; not the no-entry-points
error the claim names. -/
theorem no_entry_points_counterexample :
    PipelineExecution.execute pipelineSelfLoop successEnv =
      ([], .error (.engine (.ConfigError
        "Circular dependency detected starting from step a"))) ∧
    "Circular dependency detected starting from step a" ≠
      "Pipeline has no entry points (all steps have dependencies)" :=
  ⟨rfl, by decide⟩

/-- Claim C4, counterexample: for a pipeline whose dependency graph
contains a cycle — witnessed by `build_dependency_graph` rejecting it —
`trigger_build` does not return the validation error: it persists a
Pending build record and spawns the execution, returning Ok. -/
theorem trigger_build_cyclic_counterexample :
    build_dependency_graph pipelineCyclic =
      .error (.ConfigError "Circular dependency detected starting from step step1") ∧
    Engine.trigger_build dbCyclic "p1" "b1" 0 =
      (.ok pendingBuild,
        { pipelines := [pipelineCyclic], builds := [pendingBuild] }, true) :=
  ⟨rfl, rfl⟩

/-- Claim C4 as amended: `trigger_build` performs no validation at all.
For every stored pipeline — cyclic or not — it persists a Pending
build record and spawns the asynchronous execution, returning the
build; the cycle error only arises later inside the spawned execution,
whose `execute` call rejects the cyclic pipeline with a ConfigError,
and is merely logged there. -/
theorem trigger_build_always_persists (db : DbState) (pid fid : String) (now : Nat)
    (p : Pipeline) (hget : Db.get_pipeline db pid = Except.ok p) :
    ∃ b, Engine.trigger_build db pid fid now =
        (Except.ok b, { db with builds := db.builds ++ [b] }, true) ∧
      b.status = BuildStatus.Pending := by
  refine ⟨{ id := fid, pipeline_id := pid, branch := p.default_branch, commit := "HEAD",
            status := .Pending, started_at := none, completed_at := none,
            parameters := [], created_at := now, updated_at := now }, ?_, rfl⟩
  unfold Engine.trigger_build Engine.create_build
  rw [hget]

/-- Witness for the amended C4 theorem: the store holding the cyclic
pipeline. -/
theorem trigger_build_always_persists_witness :
    ∃ b, Engine.trigger_build dbCyclic "p1" "b1" 0 =
        (Except.ok b, { dbCyclic with builds := dbCyclic.builds ++ [b] }, true) ∧
      b.status = BuildStatus.Pending :=
  trigger_build_always_persists dbCyclic "p1" "b1" 0 pipelineCyclic rfl

/-- Claim C3, counterexample: a results list whose only step has
terminal status TimedOut is mapped to build status Success, not
Failed; and a list whose only entry is Skipped also yields Success
although not every step succeeded. -/
theorem build_status_counterexample :
    build_status_of_results [timedOutResult] = BuildStatus.Success ∧
    BuildStatus.Success ≠ BuildStatus.Failed ∧
    build_status_of_results [{ timedOutResult with status := .Skipped }] =
      BuildStatus.Success ∧
    build_status_of_results [{ timedOutResult with status := .Cancelled }] =
      BuildStatus.Success :=
  ⟨rfl, by decide, rfl, rfl⟩

/-- Claim C3 as amended: the build status `execute_build` persists is
Failed exactly when some step result has status Failed, and Success
otherwise — including when results carry TimedOut, Cancelled or
Skipped entries. -/
theorem build_status_failed_iff (results : List StepResult) :
    (build_status_of_results results = BuildStatus.Failed ↔
      ∃ r ∈ results, r.status = StepStatus.Failed) ∧
    (build_status_of_results results = BuildStatus.Success ↔
      ∀ r ∈ results, r.status ≠ StepStatus.Failed) := by
  by_cases h : results.any (fun r => r.status == StepStatus.Failed)
  · have hex : ∃ r ∈ results, r.status = StepStatus.Failed := by
      simpa using h
    constructor
    · simp [build_status_of_results, h, hex]
    · obtain ⟨r, hr, hf⟩ := hex
      simp only [build_status_of_results, h, if_true]
      constructor
      · intro hc
        exact absurd hc (by decide)
      · intro hall
        exact absurd hf (hall r hr)
  · have hnone : ∀ r ∈ results, r.status ≠ StepStatus.Failed := by
      intro r hr
      have := (List.any_eq_false).mp (Bool.not_eq_true _ |>.mp h) r hr
      simpa using this
    constructor
    · simp only [build_status_of_results, h, if_false]
      constructor
      · intro hc
        exact absurd hc (by decide)
      · intro ⟨r, hr, hf⟩
        exact absurd hf (hnone r hr)
    · simp only [build_status_of_results, h, if_false]
      exact ⟨fun _ => hnone, fun _ => rfl⟩

/-- All errors of an Except fold are of the shape the folded function
produces; instantiated with `ConfigError` producers below. -/
theorem foldlM_error_shape {α β : Type} (P : EngineError → Prop)
    (f : β → α → Except EngineError β)
    (hf : ∀ b x e, f b x = .error e → P e) :
    ∀ (l : List α) (b : β) (e : EngineError), l.foldlM f b = .error e → P e := by
  intro l
  induction l with
  | nil =>
    intro b e h
    exact Except.noConfusion h
  | cons a t ih =>
    intro b e h
    rw [List.foldlM_cons] at h
    cases hfa : f b a with
    | error e1 =>
      rw [hfa] at h
      have h2 : (Except.error e1 : Except EngineError β) = Except.error e := h
      injection h2 with he
      subst he
      exact hf b a _ hfa
    | ok b1 =>
      rw [hfa] at h
      have h2 : List.foldlM f b1 t = Except.error e := h
      exact ih b1 e h2

/-- Every error `build_dependency_graph` returns is a `ConfigError`:
both the missing-dependency rejection and the cycle rejection construct
one. -/
theorem build_dependency_graph_error_config (p : Pipeline) (e : EngineError)
    (h : build_dependency_graph p = .error e) : ∃ m, e = .ConfigError m := by
  rw [build_dependency_graph] at h
  split at h
  case h_1 e1 heq =>
    injection h with he
    subst he
    refine foldlM_error_shape (fun e => ∃ m, e = .ConfigError m) _ ?_ p.steps _ e1 heq
    intro g step e2 h2
    refine foldlM_error_shape (fun e => ∃ m, e = .ConfigError m) _ ?_
      step.dependencies g e2 h2
    intro g1 dep e3 h3
    by_cases hc : p.steps.any (fun s => s.id == dep)
    · rw [if_pos hc] at h3
      exact Except.noConfusion h3
    · rw [if_neg hc] at h3
      injection h3 with he3
      exact ⟨_, he3.symm⟩
  case h_2 graph heq =>
    split at h
    case h_1 e1 heq2 =>
      injection h with he
      subst he
      refine foldlM_error_shape (fun e => ∃ m, e = .ConfigError m) _ ?_ p.steps _ e1 heq2
      intro visited step e2 h2
      simp only at h2
      split at h2
      · injection h2 with he2
        exact ⟨_, he2.symm⟩
      · exact Except.noConfusion h2
    case h_2 v heq2 =>
      exact Except.noConfusion h

/-- A step list in which every step has dependencies contributes no
entry points. -/
theorem filter_no_deps_nil (l : List Step) (h : ∀ s ∈ l, s.dependencies ≠ []) :
    l.filter (fun step => step.dependencies.isEmpty) = [] := by
  induction l with
  | nil => rfl
  | cons a t ih =>
    have ha : a.dependencies.isEmpty = false := by
      cases hd : a.dependencies with
      | nil => exact absurd hd (h a (by simp))
      | cons y ys => rfl
    simp only [List.filter_cons, ha]
    exact ih (fun s hs => h s (by simp [hs]))

/-- Claim C9 as amended: for every pipeline with at least one step in
which every step has a non-empty dependency set, `execute` returns a
configuration error and no step is executed — but the error is not
necessarily the no-entry-points report: `build_dependency_graph` runs
first and such a pipeline always contains a missing or circular
dependency, so its `ConfigError` is returned instead (see the
counterexample); the no-entry-points branch itself is unreachable. -/
theorem all_deps_config_error (p : Pipeline) (env : ExecEnv)
    (hne : p.steps ≠ []) (hdeps : ∀ s ∈ p.steps, s.dependencies ≠ []) :
    ∃ msg, PipelineExecution.execute p env =
      ([], .error (.engine (.ConfigError msg))) := by
  rw [PipelineExecution.execute]
  cases hg : build_dependency_graph p with
  | error e =>
    obtain ⟨m, rfl⟩ := build_dependency_graph_error_config p e hg
    exact ⟨m, rfl⟩
  | ok graph =>
    refine ⟨"Pipeline has no entry points (all steps have dependencies)", ?_⟩
    have hfil := filter_no_deps_nil p.steps hdeps
    have hie : p.steps.isEmpty = false := by
      cases hps : p.steps with
      | nil => exact absurd hps hne
      | cons x xs => rfl
    simp only [hfil, List.foldl_nil, hie, List.isEmpty_nil, Bool.not_false,
      Bool.and_true, if_true]

/-- Witness for the amended C9 theorem: the self-loop pipeline. -/
theorem all_deps_config_error_witness :
    ∃ msg, PipelineExecution.execute pipelineSelfLoop successEnv =
      ([], .error (.engine (.ConfigError msg))) :=
  all_deps_config_error pipelineSelfLoop successEnv (by decide) (by decide)

/-- The ready-set collection of engine.rs lines 334-338 — a `HashSet`
collect, modelled as a duplicate-free fold — produces a list without
duplicates. -/
theorem foldl_insert_nodup (l : List Step) (acc : List String) (h : acc.Nodup) :
    (l.foldl (fun acc step =>
      if acc.contains step.id then acc else acc ++ [step.id]) acc).Nodup := by
  induction l generalizing acc with
  | nil => exact h
  | cons a t ih =>
    rw [List.foldl_cons]
    by_cases hc : acc.contains a.id
    · rw [if_pos hc]
      exact ih acc h
    · rw [if_neg hc]
      refine ih _ ?_
      rw [List.nodup_append]
      refine ⟨h, List.nodup_singleton _, ?_⟩
      intro x hx hx1
      rw [List.mem_singleton] at hx1
      subst hx1
      exact hc (List.elem_iff.mpr hx)

/-- Filtering by non-membership in the empty executing set keeps every
element. -/
theorem filter_contains_nil (l : List String) :
    (l.filter fun id => !(List.contains ([] : List String) id)) = l := by
  induction l with
  | nil => rfl
  | cons a t ih => simp [List.filter_cons, ih, List.contains]

/-- What the spawn phase does to the state: the spawned trace grows by
a prefix of the batch (the whole batch unless the step lookup panics
first), the results vector is untouched, and a successful spawn phase
yields one completion per batch element. -/
theorem spawn_steps_spec (p : Pipeline) (env : ExecEnv) :
    ∀ (batch : List String) (st : SchedState)
      (acc : List (String × Except String StepResult)),
      ∃ t, t.Sublist batch ∧
        (spawn_steps p env batch st acc).1.spawned = st.spawned ++ t ∧
        (spawn_steps p env batch st acc).1.results = st.results ∧
        (∀ cs, (spawn_steps p env batch st acc).2 = Except.ok cs →
          t = batch ∧ cs.length = acc.length + batch.length) := by
  intro batch
  induction batch with
  | nil =>
    intro st acc
    refine ⟨[], List.nil_sublist _, by simp [spawn_steps], rfl, ?_⟩
    intro cs hcs
    have h2 : acc = cs := by
      have h3 : (Except.ok acc :
          Except ExecErr (List (String × Except String StepResult))) =
          Except.ok cs := hcs
      injection h3
    subst h2
    exact ⟨rfl, by simp⟩
  | cons sid rest ih =>
    intro st acc
    cases hf : p.steps.find? (fun s => s.id == sid) with
    | none =>
      refine ⟨[], List.nil_sublist _, ?_, ?_, ?_⟩
      · simp [spawn_steps, hf]
      · simp [spawn_steps, hf]
      · intro cs hcs
        simp [spawn_steps, hf] at hcs
    | some step =>
      obtain ⟨t, htsub, htsp, htres, htok⟩ := ih
        { st with
          executing := if st.executing.contains sid then st.executing
            else st.executing ++ [sid]
          ready := st.ready.erase sid
          spawned := st.spawned ++ [sid] }
        (acc ++ [(sid, env.executor step)])
      refine ⟨sid :: t, htsub.cons₂ sid, ?_, ?_, ?_⟩
      · rw [show spawn_steps p env (sid :: rest) st acc = spawn_steps p env rest
          { st with
            executing := if st.executing.contains sid then st.executing
              else st.executing ++ [sid]
            ready := st.ready.erase sid
            spawned := st.spawned ++ [sid] }
          (acc ++ [(sid, env.executor step)]) from by simp [spawn_steps, hf]]
        rw [htsp]
        simp
      · rw [show spawn_steps p env (sid :: rest) st acc = spawn_steps p env rest
          { st with
            executing := if st.executing.contains sid then st.executing
              else st.executing ++ [sid]
            ready := st.ready.erase sid
            spawned := st.spawned ++ [sid] }
          (acc ++ [(sid, env.executor step)]) from by simp [spawn_steps, hf]]
        exact htres
      · intro cs hcs
        rw [show spawn_steps p env (sid :: rest) st acc = spawn_steps p env rest
          { st with
            executing := if st.executing.contains sid then st.executing
              else st.executing ++ [sid]
            ready := st.ready.erase sid
            spawned := st.spawned ++ [sid] }
          (acc ++ [(sid, env.executor step)]) from by simp [spawn_steps, hf]] at hcs
        obtain ⟨hteq, hclen⟩ := htok cs hcs
        subst hteq
        constructor
        · rfl
        · rw [hclen]
          simp
          omega

/-- The drain loop applied to an empty results vector: the very first
completion fails the `position(..).unwrap()` lookup, so the state is
returned unchanged and, unless there was nothing to drain, the
modelled panic is reported. -/
theorem process_completions_empty_results (p : Pipeline) (env : ExecEnv)
    (graph : List (String × List String))
    (cs : List (String × Except String StepResult)) (st : SchedState)
    (h : st.results = []) :
    (process_completions p env graph cs st).1 = st ∧
    (cs ≠ [] → (process_completions p env graph cs st).2 =
      .error (.panicked unwrapPanic)) := by
  cases cs with
  | nil => exact ⟨rfl, fun hc => absurd rfl hc⟩
  | cons c rest =>
    cases c with
    | mk sid res =>
      constructor
      · simp [process_completions, h, List.findIdx?]
      · intro _
        simp [process_completions, h, List.findIdx?]

/-- The scheduler loop, started with an empty results vector and an
empty executing set, spawns a duplicate-free list of step ids: either
the ready set is empty and nothing further is spawned, or one batch —
a permutation of the ready set, disjoint from everything already
spawned — is spawned and the drain loop stops the run at its first
completion. -/
theorem execute_loop_spawned_nodup (p : Pipeline) (env : ExecEnv)
    (graph : List (String × List String))
    (hσ : ∀ l, (env.spawnOrder l).Perm l)
    (hπ : ∀ cs, (env.completionOrder cs).Perm cs)
    (fuel : Nat) (st : SchedState)
    (hres : st.results = []) (hexe : st.executing = [])
    (hready : st.ready.Nodup) (hsp : st.spawned.Nodup)
    (hdisj : ∀ x, x ∈ st.ready → x ∉ st.spawned) :
    (execute_loop p env graph fuel st).1.Nodup := by
  cases fuel with
  | zero => exact hsp
  | succ n =>
    rw [execute_loop, hexe]
    by_cases hrdy : st.ready = []
    · rw [hrdy]
      simp only [List.isEmpty_nil, Bool.and_self, if_true]
      exact hsp
    · have hie : st.ready.isEmpty = false := by
        cases hr2 : st.ready with
        | nil => exact absurd hr2 hrdy
        | cons a t => rfl
      rw [filter_contains_nil]
      simp only [hie, List.isEmpty_nil, Bool.false_and, Bool.false_eq_true, if_false]
      have hperm := hσ st.ready
      have hbnodup : (env.spawnOrder st.ready).Nodup := hperm.symm.nodup hready
      have hbmem : ∀ x ∈ env.spawnOrder st.ready, x ∈ st.ready :=
        fun x hx => hperm.mem_iff.mp hx
      have hbne : env.spawnOrder st.ready ≠ [] := by
        intro h0
        have h1 := hperm.symm
        rw [h0] at h1
        exact hrdy h1.eq_nil
      have hbie : (env.spawnOrder st.ready).isEmpty = false := by
        cases hb2 : env.spawnOrder st.ready with
        | nil => exact absurd hb2 hbne
        | cons a t => rfl
      simp only [hbie, Bool.false_eq_true, if_false]
      obtain ⟨t, htsub, htsp, htres, htok⟩ :=
        spawn_steps_spec p env (env.spawnOrder st.ready) st []
      have hnodup_final : (st.spawned ++ t).Nodup := by
        rw [List.nodup_append]
        refine ⟨hsp, htsub.nodup hbnodup, ?_⟩
        intro a hasp hat
        exact hdisj a (hbmem a (htsub.subset hat)) hasp
      cases hs : spawn_steps p env (env.spawnOrder st.ready) st [] with
      | mk st1 r =>
        rw [hs] at htsp htres htok
        cases r with
        | error e =>
          simp only
          exact htsp ▸ hnodup_final
        | ok completions =>
          obtain ⟨hteq, hclen⟩ := htok completions rfl
          have hcne : env.completionOrder completions ≠ [] := by
            intro h0
            have h1 := (hπ completions).symm
            rw [h0] at h1
            have h2 := h1.eq_nil
            rw [h2] at hclen
            simp only [List.length_nil, Nat.zero_add] at hclen
            exact hbne (List.length_eq_zero.mp hclen.symm)
          have htres2 : st1.results = [] := htres.trans hres
          obtain ⟨hst2, herr⟩ := process_completions_empty_results p env graph
            (env.completionOrder completions) st1 htres2
          have hpc : process_completions p env graph
              (env.completionOrder completions) st1 =
              (st1, Except.error (ExecErr.panicked unwrapPanic)) := by
            have h2 := herr hcne
            cases hx : process_completions p env graph
                (env.completionOrder completions) st1 with
            | mk a b =>
              rw [hx] at hst2 h2
              have ha : a = st1 := hst2
              have hb : b = Except.error (ExecErr.panicked unwrapPanic) := h2
              rw [ha, hb]
          dsimp only
          simp only [hpc]
          exact htsp ▸ hnodup_final

/-- Claim C8: within one execution of a pipeline, no step id is ever
handed to the executor twice, for every pipeline, executor behaviour,
batch iteration order and completion order (both orders ranging over
arbitrary permutations): the trace of spawned step ids has no
duplicates. -/
theorem execute_spawns_each_step_once (p : Pipeline) (env : ExecEnv)
    (hσ : ∀ l, (env.spawnOrder l).Perm l)
    (hπ : ∀ cs, (env.completionOrder cs).Perm cs) :
    (PipelineExecution.execute p env).1.Nodup := by
  rw [PipelineExecution.execute]
  cases hg : build_dependency_graph p with
  | error e => exact List.nodup_nil
  | ok graph =>
    dsimp only
    split
    · exact List.nodup_nil
    · exact execute_loop_spawned_nodup p env graph hσ hπ _ _
        rfl rfl (foldl_insert_nodup _ [] List.nodup_nil) List.nodup_nil
        (fun x _ hx => (List.not_mem_nil x) hx)

/-- Witness for C8 at the two-step chain pipeline with the identity
orderings: the spawn trace of its execution has no duplicates. -/
theorem execute_spawns_each_step_once_witness :
    (PipelineExecution.execute pipelineChain successEnv).1.Nodup :=
  execute_spawns_each_step_once pipelineChain successEnv
    (fun l => List.Perm.refl l) (fun cs => List.Perm.refl cs)

end LightCI
